import Mathlib

/-!
A shallow embedding of `pyforestplot/graph_utils.py` (the post-draw layout and
annotation engine of the forestplot package) in Lean 4, together with theorems
settling the frozen claims about it.

Modelling conventions:
* A pandas DataFrame is a `List Row`; a cell that holds a non-string value
  (`NaN` or any other non-`str` object) is `none`.
* Machine floats are modelled by `Rat`; all arithmetic performed by the code
  (`x * (1 + 0.05)`, `ix - 0.5`, `-pad`) is exact, so this is faithful.
* The Matplotlib `Axes` object is an explicit state record (`Axes`); calls
  such as `ax.text`, `ax.axhspan`, `ax.set_ylabel` append to / overwrite the
  corresponding field.
* Python `s.lower()` is `pyLower`, `s.strip()` is `pyStrip` (composition order
  is kept exactly as in the source).
* Python's builtin `max(...)` over a possibly-empty generator is `pyMax`,
  which returns `Except` because `max` of an empty sequence raises
  `ValueError`.
-/

/-- Python `str.lower()` (ASCII case folding, as used by the source). -/
def pyLower (s : String) : String := ⟨s.data.map Char.toLower⟩

/-- Python `str.strip()`: drop leading and trailing whitespace. -/
def pyStrip (s : String) : String :=
  ⟨(((s.data.dropWhile Char.isWhitespace).reverse).dropWhile Char.isWhitespace).reverse⟩

/-- Pandas `Series.unique`: deduplicate preserving first occurrences. -/
def pdUnique (l : List (Option String)) : List (Option String) :=
  go [] l
where
  go (acc : List (Option String)) : List (Option String) → List (Option String)
    | [] => acc
    | a :: rest => if a ∈ acc then go acc rest else go (acc ++ [a]) rest

/-- One row of the intermediate DataFrame.  Only the columns read by
`graph_utils.py` are modelled: the formatted ytick label (always a string in
the intermediate frame), the `formatted_pval` column, the `yticklabel2`
column, and the group column (`none` = `NaN` / non-string). -/
structure Row where
  yticklabel : String
  formatted_pval : Option String
  yticklabel2 : Option String
  group : Option String
deriving DecidableEq, Repr

/-- A y-coordinate handed to `ax.text`: either a categorical tick label
(Python passes the label string) or a numeric data coordinate. -/
inductive YPos where
  | label (s : String)
  | coord (r : Rat)
deriving DecidableEq, Repr

/-- One Matplotlib tick-label `Text` object (the styling fields the source
touches).  `ha` is the horizontal alignment. -/
structure TickLabel where
  text : String
  fontweight : String
  fontsize : Rat
  ha : String
  fontfamily : String
deriving DecidableEq, Repr

/-- One `ax.text(...)` call.  Arguments the call leaves at the Matplotlib
default are `none`. -/
structure DrawnText where
  x : Rat
  y : YPos
  s : Option String
  ha : Option String
  va : Option String
  size : Option Rat
  fontweight : Option String
  fontfamily : Option String
deriving DecidableEq, Repr

/-- One `ax.axhspan(...)` call. -/
structure Span where
  ymin : Rat
  ymax : Rat
  color : String
  alpha : Rat
  zorder : Int
deriving DecidableEq, Repr

/-- The y-axis label state set by `ax.set_ylabel`. -/
structure YLabelState where
  text : String
  loc : Option String
  labelpad : Option Rat
  angle : Option String
  size : Option Rat
  fontweight : Option String
deriving DecidableEq, Repr

/-- Result of `ax.set_ylabel("")`: an empty label, styling at defaults. -/
def emptyYLabel : YLabelState :=
  { text := "", loc := none, labelpad := none, angle := none,
    size := none, fontweight := none }

/-- The slice of Matplotlib `Axes` state read and written by the source. -/
structure Axes where
  xlim : Rat × Rat
  ylim : Rat × Rat
  yticklabels : List TickLabel
  texts : List DrawnText
  spans : List Span
  tickPad : Option Rat
  ylabel : YLabelState
deriving DecidableEq, Repr

/-- Python's builtin `max(...)` over a sequence: raises `ValueError` on an
empty sequence, otherwise folds `max` over the elements. -/
def pyMax : List Rat → Except String Rat
  | [] => Except.error "ValueError: max() arg is an empty sequence"
  | a :: l => Except.ok (l.foldl max a)

/-- The tick labels installed by `ax.set_yticklabels(dataframe[yticklabel],
fontfamily=fontfamily, ha=...)`: one fresh `Text` object per row, with
Matplotlib default weight and size, aligned `"left"` when `flush` and
`"right"` otherwise. -/
def rfTicks (df : List Row) (flush : Bool) (fontfamily : String) :
    List TickLabel :=
  df.map (fun r =>
    { text := r.yticklabel, fontweight := "normal", fontsize := 10,
      ha := if flush then "left" else "right", fontfamily := fontfamily })

/-- Embedding of `right_flush_yticklabels` (graph_utils.py lines 116-158).
Here `measure` abstracts the renderer obtained by the forced `plt.draw()`
render pass: it gives the rendered window-extent width of a tick label's
text.  The function sets the tick labels (`rfTicks`), then computes `pad` as
the Python `max(...)` over the measured widths of the major tick labels,
which raises `ValueError` (modelled by `Except.error`) when the axis has no
ticks; when `flush`, `yax.set_tick_params(pad=pad)` records the pad. -/
def right_flush_yticklabels (df : List Row) (flush : Bool)
    (measure : String → Rat) (fontfamily : String) (ax : Axes) :
    Except String (Rat × Axes) :=
  match pyMax ((rfTicks df flush fontfamily).map (fun tl => measure tl.text)) with
  | Except.error e => Except.error e
  | Except.ok pad =>
      Except.ok (pad,
        if flush then
          { ax with yticklabels := rfTicks df flush fontfamily,
                    tickPad := some pad }
        else
          { ax with yticklabels := rfTicks df flush fontfamily })

/-- An empty axes fixture used by concrete witnesses. -/
def ax0 : Axes :=
  { xlim := (0, 1), ylim := (0, 1), yticklabels := [], texts := [],
    spans := [], tickPad := none, ylabel := emptyYLabel }

/-- The `ax.text` call issued for one row of the p-value loop in
`draw_pval_right` (graph_utils.py lines 194-208): the second ytick label is
the `formatted_pval` cell, coerced to the empty string by the `pd.isna`
check when missing; the x position is recomputed from the current axis upper
limit as `ax.get_xlim()[1] * (1 + 0.05)`. -/
def pvalRowText (upper : Rat) (row : Row) : DrawnText :=
  { x := upper * (1 + 5/100), y := YPos.label row.yticklabel,
    s := some (match row.formatted_pval with
               | none => ""
               | some t => t),
    ha := some "left", va := some "center",
    size := none, fontweight := none, fontfamily := none }

/-- The `for _, row in dataframe.iterrows()` loop of `draw_pval_right`:
threads the rebinding of the local variable `pad` together with the mutated
axes. -/
def pvalLoop : List Row → Rat × Axes → Rat × Axes
  | [], st => st
  | row :: rest, (_, ax) =>
      pvalLoop rest (ax.xlim.2 * (1 + 5/100),
        { ax with texts := ax.texts ++ [pvalRowText ax.xlim.2 row] })

/-- Embedding of `draw_pval_right` (graph_utils.py lines 161-231).  When the
`pval` column name is `none` the function is the identity on the axes.
Otherwise it runs the per-row loop, then, if a `pval_title` is requested
(kwarg default `"P-value"`): with no `annoteheaders` the title is drawn at
`(pad, ax.get_ylim()[1])` with hardcoded size 10 and bold weight; with
`annoteheaders` present it is drawn at the y index of the last tick row with
the `pval_title_fontsize` / `pval_title_fontweight` kwargs (defaults 10 /
`"bold"`). -/
def draw_pval_right (df : List Row) (pval : Option String)
    (annoteheaders : Option (List String)) (pad : Rat)
    (pval_title : Option String) (pval_title_fontweight : String)
    (pval_title_fontsize : Rat) (ax : Axes) : Axes :=
  match pval with
  | none => ax
  | some _ =>
      match pvalLoop df (pad, ax) with
      | (pad2, ax2) =>
          match pval_title with
          | none => ax2
          | some title =>
              if annoteheaders.isNone then
                { ax2 with texts := ax2.texts ++
                    [{ x := pad2, y := YPos.coord ax2.ylim.2, s := some title,
                       ha := none, va := none, size := some 10,
                       fontweight := some "bold", fontfamily := none }] }
              else
                { ax2 with texts := ax2.texts ++
                    [{ x := pad2,
                       y := YPos.coord (((ax2.yticklabels.length : Int) - 1 : Int) : Rat),
                       s := some title, ha := some "left", va := some "center",
                       size := some pval_title_fontsize,
                       fontweight := some pval_title_fontweight,
                       fontfamily := none }] }

/-- A row with a present formatted p-value, used by concrete witnesses. -/
def rowPv : Row :=
  { yticklabel := "v1", formatted_pval := some "0.01", yticklabel2 := none,
    group := none }

/-- A row whose formatted p-value is missing (NaN), used by witnesses. -/
def rowNaN : Row :=
  { yticklabel := "v2", formatted_pval := none, yticklabel2 := none,
    group := none }

/-- The `ax.text` call issued for one row in `draw_ylabel2`
(graph_utils.py lines 255-280).  Note the source passes
`s=row["yticklabel2"]` directly: unlike `draw_pval_right` there is no
`pd.isna` coercion, so a missing cell (`none`) is passed through.  The row
whose positional index `ix` equals `group_row_ix` additionally gets the
`grouplab_fontweight` / `grouplab_size` kwargs. -/
def ylabel2Text (upper : Rat) (glsz : Rat) (glfw : String)
    (group_row_ix : Nat) (ix : Nat) (row : Row) : DrawnText :=
  if ix = group_row_ix then
    { x := upper * (1 + 5/100), y := YPos.label row.yticklabel,
      s := row.yticklabel2, ha := some "left", va := some "center",
      size := some glsz, fontweight := some glfw,
      fontfamily := some "monospace" }
  else
    { x := upper * (1 + 5/100), y := YPos.label row.yticklabel,
      s := row.yticklabel2, ha := some "left", va := some "center",
      size := none, fontweight := none, fontfamily := some "monospace" }

/-- The `for ix, row in dataframe.iterrows()` loop of `draw_ylabel2`; `ix`
is the positional row index (the intermediate DataFrame carries the default
RangeIndex). -/
def ylabel2Loop (glsz : Rat) (glfw : String) (group_row_ix : Nat) :
    List Row → Nat → Axes → Axes
  | [], _, ax => ax
  | row :: rest, ix, ax =>
      ylabel2Loop glsz glfw group_row_ix rest (ix + 1)
        { ax with texts := ax.texts ++
            [ylabel2Text ax.xlim.2 glsz glfw group_row_ix ix row] }

/-- Embedding of `draw_ylabel2` (graph_utils.py lines 234-282):
`group_row_ix = len(dataframe) - 1`, then the per-row loop. -/
def draw_ylabel2 (df : List Row) (grouplab_size : Rat)
    (grouplab_fontweight : String) (ax : Axes) : Axes :=
  ylabel2Loop grouplab_size grouplab_fontweight (df.length - 1) df 0 ax

/-- Specification list of the texts emitted by `ylabel2Loop` starting at
index `ix`. -/
def y2texts (upper : Rat) (glsz : Rat) (glfw : String) (group_row_ix : Nat) :
    Nat → List Row → List DrawnText
  | _, [] => []
  | ix, row :: rest =>
      ylabel2Text upper glsz glfw group_row_ix ix row
        :: y2texts upper glsz glfw group_row_ix (ix + 1) rest

/-- A row whose `yticklabel2` cell is missing (NaN). -/
def rowY2NaN : Row :=
  { yticklabel := "r0", formatted_pval := none, yticklabel2 := none,
    group := none }

/-- Embedding of `draw_ylabel1` (graph_utils.py lines 285-321): the function
first issues `ax.set_ylabel("")`, then, only when `ylabel` is not `None`,
sets the new label with kwargs `ylabel1_size` (default 12),
`ylabel1_fontweight` (default `"bold"`), `ylabel_loc` (default `"top"`),
`ylabel_angle` (default `"horizontal"`) and `labelpad=-pad`. -/
def draw_ylabel1 (ylabel : Option String) (pad : Rat) (ylabel1_size : Rat)
    (ylabel1_fontweight : String) (ylabel_loc : String)
    (ylabel_angle : String) (ax : Axes) : Axes :=
  match ylabel with
  | none => { ax with ylabel := emptyYLabel }
  | some yl =>
      { { ax with ylabel := emptyYLabel } with ylabel :=
          { text := yl, loc := some ylabel_loc, labelpad := some (-pad),
            angle := some ylabel_angle, size := some ylabel1_size,
            fontweight := some ylabel1_fontweight } }

/-- The comparison in the inner loop of `format_grouplabels`
(graph_utils.py line 378): `gr.lower() == ylabel.get_text().lower().strip()`.
The group value `gr` is lowercased but NOT stripped; the tick text is
lowercased then stripped.  A non-string `gr` raises `AttributeError` on
`.lower()`, which the source catches and passes — modelled by `none ↦
false`. -/
def grMatches (labtext : String) (gr : Option String) : Bool :=
  match gr with
  | none => false
  | some g => decide (pyLower g = pyStrip (pyLower labtext))

/-- One iteration of the inner `for gr in dataframe[groupvar].unique()` loop
of `format_grouplabels`: on a match, sets the tick label's weight and size. -/
def groupMatchFmt (glsz : Rat) (glfw : String) (gr : Option String)
    (t : TickLabel) : TickLabel :=
  if grMatches t.text gr = true then
    { t with fontweight := glfw, fontsize := glsz }
  else t

/-- Embedding of `format_grouplabels` (graph_utils.py lines 349-384): when
`groupvar` is not `None`, for every tick label, fold the inner loop over the
unique values of the group column. -/
def format_grouplabels (df : List Row) (groupvar : Option String)
    (grouplab_size : Rat) (grouplab_fontweight : String) (ax : Axes) : Axes :=
  match groupvar with
  | none => ax
  | some _ =>
      { ax with yticklabels := ax.yticklabels.map (fun tl =>
          (pdUnique (df.map Row.group)).foldl
            (fun t gr => groupMatchFmt grouplab_size grouplab_fontweight gr t)
            tl) }

/-- In-place mutation of the element at one index of the tick-label list
(`ax.get_yticklabels()[ix].set_fontweight(...)` etc.). -/
def modifyAt (f : TickLabel → TickLabel) : Nat → List TickLabel → List TickLabel
  | _, [] => []
  | 0, a :: l => f a :: l
  | n + 1, a :: l => a :: modifyAt f n l

/-- The pair of setter calls `set_fontweight` / `set_fontsize` applied to
the table-header tick label by `format_tableheader`. -/
def setHdrFmt (fw : String) (fs : Rat) (tl : TickLabel) : TickLabel :=
  { tl with fontweight := fw, fontsize := fs }

/-- Embedding of `format_tableheader` (graph_utils.py lines 409-441): when
either annotation-header list is non-null, the label at index
`len(ax.get_yticklabels()) - 1` (the last row, the synthetic table header)
gets the `tableheader_fontweight` / `tableheader_fontsize` kwargs (defaults
`"bold"` / 10).  (For an empty label list Python's `[-1]` indexing would
raise `IndexError`; `modifyAt` is a no-op there — no claim concerns that
case.) -/
def format_tableheader (annoteheaders right_annoteheaders : Option (List String))
    (tableheader_fontweight : String) (tableheader_fontsize : Rat)
    (ax : Axes) : Axes :=
  if annoteheaders.isSome || right_annoteheaders.isSome then
    { ax with yticklabels := modifyAt (setHdrFmt tableheader_fontweight tableheader_fontsize) (ax.yticklabels.length - 1) ax.yticklabels }
  else ax

/-- The `groups` list built by `draw_alt_row_colors` (graph_utils.py lines
589-593): `[grp_str.strip().lower() for grp_str in
dataframe[groupvar].unique() if isinstance(grp_str, str)]`.  Here the group
values ARE stripped (contrast `format_grouplabels`). -/
def stripLowerGroups (df : List Row) : List String :=
  ((pdUnique (df.map Row.group)).filterMap id).map (fun s => pyLower (pyStrip s))

/-- The `groups` local of `draw_alt_row_colors`: empty when `groupvar` is
`None`. -/
def altGroups (df : List Row) (groupvar : Option String) : List String :=
  match groupvar with
  | some _ => stripLowerGroups df
  | none => []

/-- The `ax.axhspan(ix - 0.5, ix + 0.5, color=row_color, alpha=0.08,
zorder=0)` call shading tick row `ix`. -/
def altSpan (ix : Nat) (row_color : String) : Span :=
  { ymin := (ix : Rat) - 1/2, ymax := (ix : Rat) + 1/2, color := row_color,
    alpha := 8/100, zorder := 0 }

/-- The `for ix, ticklab in enumerate(yticklabels)` loop of
`draw_alt_row_colors` (graph_utils.py lines 597-606): `break` on the last
tick when headers exist; a tick whose normalized text is in `groups` resets
`counter` to 2; otherwise the row is shaded when `counter` is even and
`counter` is incremented. -/
def altLoop (groups : List String) (headers_exist : Bool) (n : Nat)
    (row_color : String) :
    List TickLabel → Nat → Nat → List Span → List Span
  | [], _, _, spans => spans
  | tl :: rest, ix, counter, spans =>
      if headers_exist = true ∧ ix = n - 1 then spans
      else if pyStrip (pyLower tl.text) ∈ groups then
        altLoop groups headers_exist n row_color rest (ix + 1) 2 spans
      else if counter % 2 = 0 then
        altLoop groups headers_exist n row_color rest (ix + 1) (counter + 1)
          (spans ++ [altSpan ix row_color])
      else
        altLoop groups headers_exist n row_color rest (ix + 1) (counter + 1)
          spans

/-- Embedding of `draw_alt_row_colors` (graph_utils.py lines 544-608). -/
def draw_alt_row_colors (df : List Row) (groupvar : Option String)
    (annoteheaders right_annoteheaders : Option (List String))
    (row_color : String) (ax : Axes) : Axes :=
  let headers_exist := annoteheaders.isSome || right_annoteheaders.isSome
  let groups := altGroups df groupvar
  let newSpans := altLoop groups headers_exist ax.yticklabels.length row_color
    ax.yticklabels 0 1 ax.spans
  { ax with spans := newSpans }

/-- A tick label with Matplotlib default styling, for concrete fixtures. -/
def plainTick (t : String) : TickLabel :=
  { text := t, fontweight := "normal", fontsize := 10, ha := "right",
    fontfamily := "monospace" }

/-- A row with only a label and a group cell, for concrete fixtures. -/
def mkRow (l : String) (g : Option String) : Row :=
  { yticklabel := l, formatted_pval := none, yticklabel2 := none, group := g }

/-- An axes fixture with a single tick label. -/
def axTick (t : String) : Axes := { ax0 with yticklabels := [plainTick t] }

/-- A DataFrame whose single group value carries surrounding whitespace. -/
def dfTrim : List Row := [mkRow "x" (some " A ")]

/-- The five-tick DataFrame of claim C1's end-to-end example:
`[group "A", x1, x2, group "B", x3]`. -/
def df5 : List Row :=
  [mkRow "A" (some "A"), mkRow "x1" none, mkRow "x2" none,
   mkRow "B" (some "B"), mkRow "x3" none]

/-- The axes carrying the five corresponding tick labels. -/
def ax5 : Axes :=
  { ax0 with yticklabels := [plainTick "A", plainTick "x1", plainTick "x2",
      plainTick "B", plainTick "x3"] }

/-- An axes fixture with two tick rows, the last being a table header. -/
def ax2h : Axes :=
  { ax0 with yticklabels := [plainTick "r1", plainTick "hdr"] }

theorem mem_pdUnique_go (l : List (Option String)) :
    ∀ (acc : List (Option String)) (x : Option String),
      x ∈ pdUnique.go acc l ↔ x ∈ acc ∨ x ∈ l := by
  induction l with
  | nil => intro acc x; simp [pdUnique.go]
  | cons a rest ih =>
      intro acc x
      by_cases ha : a ∈ acc
      · rw [pdUnique.go, if_pos ha, ih]
        constructor
        · rintro (h | h)
          · exact Or.inl h
          · exact Or.inr (List.mem_cons_of_mem _ h)
        · rintro (h | h)
          · exact Or.inl h
          · rcases List.mem_cons.mp h with rfl | h
            · exact Or.inl ha
            · exact Or.inr h
      · rw [pdUnique.go, if_neg ha, ih]
        constructor
        · rintro (h | h)
          · rcases List.mem_append.mp h with h | h
            · exact Or.inl h
            · simp at h; subst h; exact Or.inr (List.mem_cons_self _ _)
          · exact Or.inr (List.mem_cons_of_mem _ h)
        · rintro (h | h)
          · exact Or.inl (List.mem_append.mpr (Or.inl h))
          · rcases List.mem_cons.mp h with rfl | h
            · exact Or.inl (List.mem_append.mpr (Or.inr (by simp)))
            · exact Or.inr h

theorem mem_pdUnique (l : List (Option String)) (x : Option String) :
    x ∈ pdUnique l ↔ x ∈ l := by
  rw [pdUnique, mem_pdUnique_go]; simp

theorem le_foldl_max (l : List Rat) : ∀ (a : Rat), a ≤ l.foldl max a := by
  induction l with
  | nil => intro a; simp
  | cons b l ih =>
      intro a
      calc a ≤ max a b := le_max_left a b
        _ ≤ l.foldl max (max a b) := ih (max a b)

theorem foldl_max_le_of_mem (l : List Rat) :
    ∀ (a x : Rat), x ∈ l → x ≤ l.foldl max a := by
  induction l with
  | nil => intro a x hx; simp at hx
  | cons b l ih =>
      intro a x hx
      rcases List.mem_cons.mp hx with rfl | hx
      · calc x ≤ max a x := le_max_right a x
          _ ≤ l.foldl max (max a x) := le_foldl_max l (max a x)
      · exact ih (max a b) x hx

theorem foldl_max_mem (l : List Rat) : ∀ (a : Rat), l.foldl max a ∈ a :: l := by
  induction l with
  | nil => intro a; simp
  | cons b l ih =>
      intro a
      have h := ih (max a b)
      rcases List.mem_cons.mp h with h | h
      · rcases max_choice a b with hab | hab <;> rw [List.foldl_cons, h, hab]
        · simp
        · simp
      · exact List.mem_cons_of_mem _ (List.mem_cons_of_mem _ h)

theorem pyMax_spec (l : List Rat) (h : l ≠ []) :
    ∃ m, pyMax l = Except.ok m ∧ m ∈ l ∧ ∀ x ∈ l, x ≤ m := by
  cases l with
  | nil => exact absurd rfl h
  | cons a l =>
      refine ⟨l.foldl max a, rfl, foldl_max_mem l a, ?_⟩
      intro x hx
      rcases List.mem_cons.mp hx with rfl | hx
      · exact le_foldl_max l x
      · exact foldl_max_le_of_mem l a x hx

/-- Claim C3 (confirmed).  For every non-empty DataFrame,
`right_flush_yticklabels` returns the maximum measured rendered width over
all primary tick labels; when `flush` it additionally sets the axis tick
padding to exactly that maximum and left-aligns the labels, and when not
`flush` the tick padding is unchanged and the labels are right-aligned. -/
theorem right_flush_pad_is_max_width (df : List Row) (flush : Bool)
    (measure : String → Rat) (ff : String) (ax : Axes) (h : df ≠ []) :
    ∃ m ax2, right_flush_yticklabels df flush measure ff ax = Except.ok (m, ax2) ∧
      m ∈ df.map (fun r => measure r.yticklabel) ∧
      (∀ w ∈ df.map (fun r => measure r.yticklabel), w ≤ m) ∧
      (flush = true → ax2.tickPad = some m ∧
        ∀ tl ∈ ax2.yticklabels, tl.ha = "left") ∧
      (flush = false → ax2.tickPad = ax.tickPad ∧
        ∀ tl ∈ ax2.yticklabels, tl.ha = "right") := by
  have hL : (rfTicks df flush ff).map (fun tl => measure tl.text)
      = df.map (fun r => measure r.yticklabel) := by
    rw [rfTicks, List.map_map]; rfl
  have hne : df.map (fun r => measure r.yticklabel) ≠ [] := by
    intro hc
    exact h (List.map_eq_nil_iff.mp hc)
  obtain ⟨m, hm, hmem, hub⟩ := pyMax_spec _ hne
  rw [← hL] at hm
  cases flush with
  | true =>
      refine ⟨m, { ax with yticklabels := rfTicks df true ff,
                           tickPad := some m }, ?_, hmem, hub, ?_, ?_⟩
      · rw [right_flush_yticklabels, hm]
        rfl
      · intro _
        refine ⟨rfl, ?_⟩
        intro tl htl
        obtain ⟨r, _, rfl⟩ := List.mem_map.mp htl
        rfl
      · intro hc; cases hc
  | false =>
      refine ⟨m, { ax with yticklabels := rfTicks df false ff }, ?_, hmem, hub, ?_, ?_⟩
      · rw [right_flush_yticklabels, hm]
        rfl
      · intro hc; cases hc
      · intro _
        refine ⟨rfl, ?_⟩
        intro tl htl
        obtain ⟨r, _, rfl⟩ := List.mem_map.mp htl
        rfl

/-- Witness for C3 at a concrete two-row input. -/
theorem right_flush_pad_is_max_width_witness :
    ∃ m ax2, right_flush_yticklabels
        [{ yticklabel := "ab", formatted_pval := none, yticklabel2 := none, group := none },
         { yticklabel := "c", formatted_pval := none, yticklabel2 := none, group := none }]
        true (fun s => (s.length : Rat)) "monospace" ax0 = Except.ok (m, ax2) ∧
      m ∈ [({ yticklabel := "ab", formatted_pval := none, yticklabel2 := none, group := none } : Row),
           { yticklabel := "c", formatted_pval := none, yticklabel2 := none, group := none }].map
          (fun r => ((r.yticklabel.length : Rat))) ∧
      (∀ w ∈ [({ yticklabel := "ab", formatted_pval := none, yticklabel2 := none, group := none } : Row),
              { yticklabel := "c", formatted_pval := none, yticklabel2 := none, group := none }].map
          (fun r => ((r.yticklabel.length : Rat))), w ≤ m) ∧
      (true = true → ax2.tickPad = some m ∧
        ∀ tl ∈ ax2.yticklabels, tl.ha = "left") ∧
      (true = false → ax2.tickPad = ax0.tickPad ∧
        ∀ tl ∈ ax2.yticklabels, tl.ha = "right") :=
  right_flush_pad_is_max_width _ true (fun s => (s.length : Rat)) "monospace" ax0
    (by simp)

/-- Claim C2 counterexample: on zero rows `right_flush_yticklabels` does not
return a degenerate/zero pad — it raises (Python `max()` of an empty
sequence raises `ValueError`), for both `flush=true` and `flush=false`. -/
theorem right_flush_zero_rows_cex :
    right_flush_yticklabels [] true (fun _ => 0) "monospace" ax0
      = Except.error "ValueError: max() arg is an empty sequence" ∧
    right_flush_yticklabels [] false (fun _ => 0) "monospace" ax0
      = Except.error "ValueError: max() arg is an empty sequence" :=
  ⟨rfl, rfl⟩

/-- Claim C2 (corrected).  For zero-row input the left-pad computation raises a
`ValueError` (from Python `max` over the empty sequence of tick-label
widths) for both values of `flush`; it does not return a zero pad. -/
theorem right_flush_zero_rows_error (flush : Bool) (measure : String → Rat)
    (ff : String) (ax : Axes) :
    right_flush_yticklabels [] flush measure ff ax
      = Except.error "ValueError: max() arg is an empty sequence" := rfl

theorem pvalLoop_closed (df : List Row) :
    ∀ (pad : Rat) (ax : Axes),
      pvalLoop df (pad, ax) =
        ((if df.isEmpty then pad else ax.xlim.2 * (1 + 5/100)),
         { ax with texts := ax.texts ++ df.map (pvalRowText ax.xlim.2) }) := by
  induction df with
  | nil => intro pad ax; simp [pvalLoop]
  | cons row rest ih =>
      intro pad ax
      rw [pvalLoop, ih]
      cases rest with
      | nil => simp [pvalLoop]
      | cons r2 rest2 => simp

/-- Claim C5 (confirmed).  With a non-null p-value column, `draw_pval_right`
draws, for every row, the row's p-value text at
`x = axisUpperLimit * 1.05`, left-aligned and vertically centered at the
row's categorical y position; a missing p-value is drawn as the empty
string. -/
theorem draw_pval_right_row_text (df : List Row) (p : String)
    (ah : Option (List String)) (pad : Rat) (title : Option String)
    (tfw : String) (tfs : Rat) (ax : Axes) (row : Row) (hrow : row ∈ df) :
    ∃ t ∈ (draw_pval_right df (some p) ah pad title tfw tfs ax).texts,
      t.x = ax.xlim.2 * (105/100) ∧ t.y = YPos.label row.yticklabel ∧
      t.ha = some "left" ∧ t.va = some "center" ∧
      t.s = some (row.formatted_pval.getD "") := by
  have hprops : (pvalRowText ax.xlim.2 row).x = ax.xlim.2 * (105/100) ∧
      (pvalRowText ax.xlim.2 row).y = YPos.label row.yticklabel ∧
      (pvalRowText ax.xlim.2 row).ha = some "left" ∧
      (pvalRowText ax.xlim.2 row).va = some "center" ∧
      (pvalRowText ax.xlim.2 row).s = some (row.formatted_pval.getD "") := by
    refine ⟨?_, rfl, rfl, rfl, ?_⟩
    · show ax.xlim.2 * (1 + 5/100) = ax.xlim.2 * (105/100)
      norm_num
    · obtain ⟨ytl, fp, y2, g⟩ := row
      cases fp <;> rfl
  have hbase : pvalRowText ax.xlim.2 row ∈
      ax.texts ++ df.map (pvalRowText ax.xlim.2) :=
    List.mem_append.mpr (Or.inr (List.mem_map_of_mem _ hrow))
  refine ⟨pvalRowText ax.xlim.2 row, ?_, hprops⟩
  rw [draw_pval_right, pvalLoop_closed]
  cases title with
  | none => exact hbase
  | some t =>
      by_cases hh : ah.isNone = true
      · simp only [hh, if_pos]
        exact List.mem_append.mpr (Or.inl hbase)
      · simp only [hh, if_neg, Bool.false_eq_true, not_false_eq_true]
        exact List.mem_append.mpr (Or.inl hbase)

/-- Witness for C5: a concrete two-row table where the second row's p-value
is missing; its text is drawn as the empty string at `upper * 1.05`. -/
theorem draw_pval_right_row_text_witness :
    ∃ t ∈ (draw_pval_right [rowPv, rowNaN] (some "pval") none 3
        (some "P-value") "bold" 10 ax0).texts,
      t.x = ax0.xlim.2 * (105/100) ∧ t.y = YPos.label rowNaN.yticklabel ∧
      t.ha = some "left" ∧ t.va = some "center" ∧
      t.s = some (rowNaN.formatted_pval.getD "") :=
  draw_pval_right_row_text [rowPv, rowNaN] "pval" none 3 (some "P-value")
    "bold" 10 ax0 rowNaN (by simp)

/-- Claim C7 (confirmed).  When a p-value column title is requested: with no
left-side annotation headers the title is drawn at the top of the axis
y-range (with the hardcoded size 10 and bold weight); with annotation
headers present it is drawn bold at the y index of the last tick row. -/
theorem draw_pval_right_title_position (df : List Row) (p : String)
    (ah : Option (List String)) (pad : Rat) (title : String) (tfs : Rat)
    (ax : Axes) :
    (ah = none →
      ∃ x, (draw_pval_right df (some p) ah pad (some title) "bold" tfs ax).texts.getLast?
          = some { x := x, y := YPos.coord ax.ylim.2, s := some title,
                   ha := none, va := none, size := some 10,
                   fontweight := some "bold", fontfamily := none }) ∧
    (∀ hs, ah = some hs →
      ∃ x, (draw_pval_right df (some p) ah pad (some title) "bold" tfs ax).texts.getLast?
          = some { x := x,
                   y := YPos.coord (((ax.yticklabels.length : Int) - 1 : Int) : Rat),
                   s := some title, ha := some "left", va := some "center",
                   size := some tfs, fontweight := some "bold",
                   fontfamily := none }) := by
  constructor
  · rintro rfl
    refine ⟨if df.isEmpty then pad else ax.xlim.2 * (1 + 5/100), ?_⟩
    rw [draw_pval_right, pvalLoop_closed]
    simp only [Option.isNone_none, if_pos]
    exact List.getLast?_concat _
  · rintro hs rfl
    refine ⟨if df.isEmpty then pad else ax.xlim.2 * (1 + 5/100), ?_⟩
    rw [draw_pval_right, pvalLoop_closed]
    simp only [Option.isNone_some, Bool.false_eq_true, if_neg,
      not_false_eq_true]
    exact List.getLast?_concat _

/-- Witness for C7 in the no-annotation-headers branch, at a concrete
one-row table. -/
theorem draw_pval_right_title_position_witness :
    ∃ x, (draw_pval_right [rowPv] (some "pval") none 3 (some "P-value")
        "bold" 10 ax0).texts.getLast?
      = some { x := x, y := YPos.coord ax0.ylim.2, s := some "P-value",
               ha := none, va := none, size := some 10,
               fontweight := some "bold", fontfamily := none } :=
  (draw_pval_right_title_position [rowPv] "pval" none 3 "P-value" 10 ax0).1 rfl

/-- Claim C9 (confirmed).  Under the precondition that the table is
non-empty and the p-value column is non-null, `draw_pval_right` is
independent of its `pad` argument: every drawn x offset is re-derived from
the current axis upper limit. -/
theorem draw_pval_right_pad_noninterference (df : List Row) (p : String)
    (ah : Option (List String)) (padA padB : Rat) (title : Option String)
    (tfw : String) (tfs : Rat) (ax : Axes) (h : df ≠ []) :
    draw_pval_right df (some p) ah padA title tfw tfs ax
      = draw_pval_right df (some p) ah padB title tfw tfs ax := by
  have he : df.isEmpty = false := by
    cases df with
    | nil => exact absurd rfl h
    | cons a l => rfl
  rw [draw_pval_right, draw_pval_right, pvalLoop_closed, pvalLoop_closed, he]
  simp

/-- Witness for C9: two different pad arguments give identical output on a
concrete one-row table. -/
theorem draw_pval_right_pad_noninterference_witness :
    draw_pval_right [rowPv] (some "pval") none 3 (some "P-value") "bold" 10 ax0
      = draw_pval_right [rowPv] (some "pval") none 7 (some "P-value") "bold" 10 ax0 :=
  draw_pval_right_pad_noninterference [rowPv] "pval" none 3 7 (some "P-value")
    "bold" 10 ax0 (by simp)

theorem ylabel2Loop_closed (glsz : Rat) (glfw : String) (g : Nat)
    (df : List Row) : ∀ (ix : Nat) (ax : Axes),
    ylabel2Loop glsz glfw g df ix ax =
      { ax with texts := ax.texts ++ y2texts ax.xlim.2 glsz glfw g ix df } := by
  induction df with
  | nil => intro ix ax; simp [ylabel2Loop, y2texts]
  | cons row rest ih =>
      intro ix ax
      rw [ylabel2Loop, ih, y2texts]
      simp

theorem y2texts_get (upper : Rat) (glsz : Rat) (glfw : String) (g : Nat)
    (df : List Row) : ∀ (ix j : Nat) (row : Row), df.get? j = some row →
    (y2texts upper glsz glfw g ix df).get? j
      = some (ylabel2Text upper glsz glfw g (ix + j) row) := by
  induction df with
  | nil => intro ix j row h; simp at h
  | cons r rest ih =>
      intro ix j row h
      cases j with
      | zero => simp at h; subst h; simp [y2texts]
      | succ j =>
          simp only [List.get?_cons_succ] at h
          rw [y2texts, List.get?_cons_succ, ih (ix + 1) j row h]
          have : ix + 1 + j = ix + (j + 1) := by omega
          rw [this]

/-- Claim C6 counterexample: `draw_ylabel2` does not render a missing
secondary-label value as empty text.  On a one-row table whose
`yticklabel2` is missing, the single drawn text carries the missing value
through unchanged (`none`, i.e. the NaN object is handed to `ax.text`
as-is — there is no `pd.isna` coercion in `draw_ylabel2`), not the empty
string. -/
theorem draw_ylabel2_missing_not_empty_cex :
    (draw_ylabel2 [rowY2NaN] 10 "bold" ax0).texts.map DrawnText.s = [none] ∧
    (draw_ylabel2 [rowY2NaN] 10 "bold" ax0).texts.map DrawnText.s
      ≠ [some ""] := by
  constructor
  · rfl
  · decide

/-- Claim C6 (corrected).  In `draw_ylabel2` every row's secondary label is
drawn at `(upper * 1.05, row.y)` left-aligned and vertically centered; the
row whose index equals `rowCount - 1` is drawn with the configured bold
weight and larger size while every other row is drawn with default weight;
a missing secondary-label value is passed through unchanged (it is NOT
rendered as empty text). -/
theorem draw_ylabel2_rows (df : List Row) (glsz : Rat) (glfw : String)
    (ax : Axes) (ix : Nat) (row : Row) (h : df.get? ix = some row) :
    ∃ t, (draw_ylabel2 df glsz glfw ax).texts.get? (ax.texts.length + ix)
        = some t ∧
      t.x = ax.xlim.2 * (105/100) ∧ t.y = YPos.label row.yticklabel ∧
      t.s = row.yticklabel2 ∧ t.ha = some "left" ∧ t.va = some "center" ∧
      (ix = df.length - 1 → t.fontweight = some glfw ∧ t.size = some glsz) ∧
      (ix ≠ df.length - 1 → t.fontweight = none ∧ t.size = none) := by
  refine ⟨ylabel2Text ax.xlim.2 glsz glfw (df.length - 1) ix row, ?_, ?_⟩
  · rw [draw_ylabel2, ylabel2Loop_closed]
    show (ax.texts ++ y2texts ax.xlim.2 glsz glfw (df.length - 1) 0 df).get?
        (ax.texts.length + ix) = _
    rw [List.get?_append_right (Nat.le_add_right _ _)]
    have hsub : ax.texts.length + ix - ax.texts.length = ix := by omega
    rw [hsub, y2texts_get ax.xlim.2 glsz glfw (df.length - 1) df 0 ix row h]
    simp
  · by_cases hix : ix = df.length - 1
    · rw [ylabel2Text, if_pos hix]
      refine ⟨?_, rfl, rfl, rfl, rfl, fun _ => ⟨rfl, rfl⟩, fun hc => absurd hix hc⟩
      show ax.xlim.2 * (1 + 5/100) = ax.xlim.2 * (105/100)
      norm_num
    · rw [ylabel2Text, if_neg hix]
      refine ⟨?_, rfl, rfl, rfl, rfl, fun hc => absurd hc hix, fun _ => ⟨rfl, rfl⟩⟩
      show ax.xlim.2 * (1 + 5/100) = ax.xlim.2 * (105/100)
      norm_num

/-- Witness for C6's corrected statement at a concrete two-row table: the
last row (index 1 = rowCount - 1) is rendered bold at the configured size,
and the missing `yticklabel2` of row 1 is passed through as `none`. -/
theorem draw_ylabel2_rows_witness :
    ∃ t, (draw_ylabel2 [rowPv, rowY2NaN] 12 "bold" ax0).texts.get?
        (ax0.texts.length + 1) = some t ∧
      t.x = ax0.xlim.2 * (105/100) ∧ t.y = YPos.label rowY2NaN.yticklabel ∧
      t.s = rowY2NaN.yticklabel2 ∧ t.ha = some "left" ∧ t.va = some "center" ∧
      (1 = [rowPv, rowY2NaN].length - 1 → t.fontweight = some "bold" ∧
        t.size = some 12) ∧
      (1 ≠ [rowPv, rowY2NaN].length - 1 → t.fontweight = none ∧
        t.size = none) :=
  draw_ylabel2_rows [rowPv, rowY2NaN] 12 "bold" ax0 1 rowY2NaN rfl

/-- Claim C10 (confirmed).  `draw_ylabel1` always clears the y-axis label
first: with `ylabel = None` it is not a no-op but overwrites whatever label
the axes carried with the empty label; with a non-null `ylabel` it draws the
new label with the configured size, weight, location, angle, and a label-pad
of minus the supplied pad. -/
theorem draw_ylabel1_clears_then_sets (pad : Rat) (sz : Rat) (fw : String)
    (loc : String) (ang : String) (ax : Axes) :
    draw_ylabel1 none pad sz fw loc ang ax
        = { ax with ylabel := emptyYLabel } ∧
    (∀ s, draw_ylabel1 (some s) pad sz fw loc ang ax =
      { ax with ylabel :=
          { text := s, loc := some loc, labelpad := some (-pad),
            angle := some ang, size := some sz, fontweight := some fw } }) :=
  ⟨rfl, fun _ => rfl⟩

theorem foldl_groupMatchFmt (glsz : Rat) (glfw : String) :
    ∀ (gs : List (Option String)) (tl : TickLabel),
      gs.foldl (fun t gr => groupMatchFmt glsz glfw gr t) tl =
        if gs.any (grMatches tl.text) = true then
          { tl with fontweight := glfw, fontsize := glsz }
        else tl := by
  intro gs
  induction gs with
  | nil => intro tl; simp
  | cons gr rest ih =>
      intro tl
      rw [List.foldl_cons]
      cases hm : grMatches tl.text gr with
      | true =>
          have h1 : groupMatchFmt glsz glfw gr tl
              = { tl with fontweight := glfw, fontsize := glsz } := by
            simp [groupMatchFmt, hm]
          show List.foldl _ (groupMatchFmt glsz glfw gr tl) rest = _
          rw [h1, ih]
          simp [List.any_cons, hm]
      | false =>
          have h1 : groupMatchFmt glsz glfw gr tl = tl := by
            simp [groupMatchFmt, hm]
          show List.foldl _ (groupMatchFmt glsz glfw gr tl) rest = _
          rw [h1, ih]
          simp [List.any_cons, hm]

/-- Claim C8 (corrected).  Group membership testing is case-insensitive and
resilient to non-string values in both functions (a non-string group value
never matches and raises no error), and the tick text is lowercased and
trimmed in both; but the group value itself is trimmed only in
`draw_alt_row_colors` — `format_grouplabels` compares the group value
lowercased WITHOUT trimming.  Part one and two characterize
`format_grouplabels`: a tick is restyled exactly when some group value `g`
of the column satisfies `pyLower g = pyStrip (pyLower tickText)`; part
three characterizes the `groups` list used by `draw_alt_row_colors`, whose
members are the `pyLower (pyStrip g)` for string group values `g`. -/
theorem group_membership_tests (df : List Row) (gv : String) (glsz : Rat)
    (glfw : String) (ax : Axes) (i : Nat) (tl : TickLabel) (t : String)
    (h : ax.yticklabels.get? i = some tl) :
    ((∃ g, some g ∈ df.map Row.group ∧ pyLower g = pyStrip (pyLower tl.text)) →
      (format_grouplabels df (some gv) glsz glfw ax).yticklabels.get? i
        = some { tl with fontweight := glfw, fontsize := glsz }) ∧
    ((¬ ∃ g, some g ∈ df.map Row.group ∧ pyLower g = pyStrip (pyLower tl.text)) →
      (format_grouplabels df (some gv) glsz glfw ax).yticklabels.get? i
        = some tl) ∧
    (t ∈ stripLowerGroups df ↔
      ∃ g, some g ∈ df.map Row.group ∧ pyLower (pyStrip g) = t) := by
  have hfmt : (format_grouplabels df (some gv) glsz glfw ax).yticklabels.get? i
      = some ((pdUnique (df.map Row.group)).foldl
          (fun tAcc gr => groupMatchFmt glsz glfw gr tAcc) tl) := by
    show (ax.yticklabels.map _).get? i = _
    rw [List.get?_map, h]
    rfl
  have hany : ((pdUnique (df.map Row.group)).any (grMatches tl.text) = true) ↔
      ∃ g, some g ∈ df.map Row.group ∧ pyLower g = pyStrip (pyLower tl.text) := by
    rw [List.any_eq_true]
    constructor
    · rintro ⟨gr, hgr, hm⟩
      cases gr with
      | none => simp [grMatches] at hm
      | some g =>
          exact ⟨g, (mem_pdUnique _ _).mp hgr, by simpa [grMatches] using hm⟩
    · rintro ⟨g, hg, he⟩
      exact ⟨some g, (mem_pdUnique _ _).mpr hg, by simp [grMatches, he]⟩
  refine ⟨?_, ?_, ?_⟩
  · intro hex
    rw [hfmt, foldl_groupMatchFmt, if_pos (hany.mpr hex)]
  · intro hnex
    rw [hfmt, foldl_groupMatchFmt, if_neg (fun hc => hnex (hany.mp hc))]
  · rw [stripLowerGroups]
    constructor
    · intro hmem
      obtain ⟨s, hs, rfl⟩ := List.mem_map.mp hmem
      obtain ⟨o, ho, hid⟩ := List.mem_filterMap.mp hs
      have : o = some s := hid
      subst this
      exact ⟨s, (mem_pdUnique _ _).mp ho, rfl⟩
    · rintro ⟨g, hg, rfl⟩
      exact List.mem_map.mpr
        ⟨g, List.mem_filterMap.mpr ⟨some g, (mem_pdUnique _ _).mpr hg, rfl⟩, rfl⟩

/-- Witness for C8's corrected statement: with group value `"A"` and tick
text `" A "` the lowercase comparison matches (the tick text is trimmed),
so `format_grouplabels` restyles the tick; and the membership
characterization of the shading `groups` list at the concrete value
`"a"`. -/
theorem group_membership_tests_witness :
    (format_grouplabels [mkRow "x" (some "A")] (some "group") 10 "bold"
        (axTick " A ")).yticklabels.get? 0
      = some { plainTick " A " with fontweight := "bold", fontsize := 10 } ∧
    ("a" ∈ stripLowerGroups [mkRow "x" (some "A")] ↔
      ∃ g, some g ∈ [mkRow "x" (some "A")].map Row.group ∧
        pyLower (pyStrip g) = "a") :=
  ⟨(group_membership_tests [mkRow "x" (some "A")] "group" 10 "bold"
      (axTick " A ") 0 (plainTick " A ") "a" rfl).1
      ⟨"A", by decide, by decide⟩,
   (group_membership_tests [mkRow "x" (some "A")] "group" 10 "bold"
      (axTick " A ") 0 (plainTick " A ") "a" rfl).2.2⟩

/-- Claim C8 counterexample: the claim says the membership test is trimmed
on BOTH the group value and the tick text in both functions.  With group
value `" A "` and tick text `"A"`, trimming both sides would match; but
`format_grouplabels` leaves the tick at `"normal"` weight (it does not trim
the group value), while the `draw_alt_row_colors` groups list DOES contain
the match (it strips group values) — so the claim fails on
`format_grouplabels`. -/
theorem group_trim_asymmetry_cex :
    (format_grouplabels dfTrim (some "group") 10 "bold"
        (axTick "A")).yticklabels.map TickLabel.fontweight = ["normal"] ∧
    pyStrip (pyLower "A") ∈ stripLowerGroups dfTrim := by
  constructor
  · decide
  · decide

theorem altLoop_append (g : List String) (he : Bool) (n : Nat) (c : String) :
    ∀ (labs : List TickLabel) (ix cnt : Nat) (spans : List Span),
      altLoop g he n c labs ix cnt spans
        = spans ++ altLoop g he n c labs ix cnt [] := by
  intro labs
  induction labs with
  | nil => intro ix cnt spans; simp [altLoop]
  | cons tl rest ih =>
      intro ix cnt spans
      by_cases hbr : he = true ∧ ix = n - 1
      · rw [altLoop, if_pos hbr, altLoop, if_pos hbr]
        simp
      · by_cases hg : pyStrip (pyLower tl.text) ∈ g
        · rw [altLoop, if_neg hbr, if_pos hg, altLoop, if_neg hbr, if_pos hg]
          exact ih (ix + 1) 2 spans
        · by_cases hc : cnt % 2 = 0
          · rw [altLoop, if_neg hbr, if_neg hg, if_pos hc,
                altLoop, if_neg hbr, if_neg hg, if_pos hc]
            rw [ih (ix + 1) (cnt + 1) (spans ++ [altSpan ix c]),
                ih (ix + 1) (cnt + 1) ([] ++ [altSpan ix c])]
            simp
          · rw [altLoop, if_neg hbr, if_neg hg, if_neg hc,
                altLoop, if_neg hbr, if_neg hg, if_neg hc]
            exact ih (ix + 1) (cnt + 1) spans

theorem mem_altLoop_left (g : List String) (he : Bool) (n : Nat) (c : String)
    (labs : List TickLabel) (ix cnt : Nat) (spans : List Span) (s : Span)
    (hs : s ∈ spans) : s ∈ altLoop g he n c labs ix cnt spans := by
  rw [altLoop_append]
  exact List.mem_append_left _ hs

theorem altLoop_spans_subset (g : List String) (n : Nat) (c : String) :
    ∀ (labs : List TickLabel) (ix cnt : Nat) (spans : List Span) (s : Span),
      s ∈ altLoop g true n c labs ix cnt spans →
      s ∈ spans ∨ ∃ k, k ≠ n - 1 ∧ s = altSpan k c := by
  intro labs
  induction labs with
  | nil =>
      intro ix cnt spans s hs
      rw [altLoop] at hs
      exact Or.inl hs
  | cons tl rest ih =>
      intro ix cnt spans s hs
      by_cases hbr : (true : Bool) = true ∧ ix = n - 1
      · rw [altLoop, if_pos hbr] at hs
        exact Or.inl hs
      · have hix : ix ≠ n - 1 := fun hc => hbr ⟨rfl, hc⟩
        by_cases hg : pyStrip (pyLower tl.text) ∈ g
        · rw [altLoop, if_neg hbr, if_pos hg] at hs
          exact ih _ _ _ _ hs
        · by_cases hc2 : cnt % 2 = 0
          · rw [altLoop, if_neg hbr, if_neg hg, if_pos hc2] at hs
            rcases ih _ _ _ _ hs with hmem | hex
            · rcases List.mem_append.mp hmem with hthis | hnew
              · exact Or.inl hthis
              · simp only [List.mem_singleton] at hnew
                exact Or.inr ⟨ix, hix, hnew⟩
            · exact Or.inr hex
          · rw [altLoop, if_neg hbr, if_neg hg, if_neg hc2] at hs
            exact ih _ _ _ _ hs

theorem altLoop_shades_after_group (g : List String) (he : Bool) (n : Nat)
    (c : String) :
    ∀ (pre : List TickLabel) (ta tb : TickLabel) (post : List TickLabel)
      (j cnt : Nat) (spans : List Span),
      pyStrip (pyLower ta.text) ∈ g →
      pyStrip (pyLower tb.text) ∉ g →
      (he = true → ∀ k, k ≤ j + pre.length + 1 → k ≠ n - 1) →
      altSpan (j + pre.length + 1) c
        ∈ altLoop g he n c (pre ++ ta :: tb :: post) j cnt spans := by
  intro pre
  induction pre with
  | nil =>
      intro ta tb post j cnt spans hta htb hk
      simp only [List.nil_append, List.length_nil, Nat.add_zero]
      have hbr1 : ¬(he = true ∧ j = n - 1) := by
        rintro ⟨h1, h2⟩
        exact hk h1 j (by omega) h2
      rw [altLoop, if_neg hbr1, if_pos hta]
      have hbr2 : ¬(he = true ∧ j + 1 = n - 1) := by
        rintro ⟨h1, h2⟩
        exact hk h1 (j + 1) (by omega) h2
      rw [altLoop, if_neg hbr2, if_neg htb, if_pos (by norm_num : 2 % 2 = 0)]
      exact mem_altLoop_left _ _ _ _ _ _ _ _ _
        (List.mem_append_right _ (List.mem_singleton.mpr rfl))
  | cons a pre2 ih =>
      intro ta tb post j cnt spans hta htb hk
      have hidx : j + (a :: pre2).length + 1 = (j + 1) + pre2.length + 1 := by
        simp [List.length_cons]
        omega
      rw [hidx]
      have hk2 : he = true → ∀ k, k ≤ (j + 1) + pre2.length + 1 → k ≠ n - 1 := by
        intro h1 k hkle
        refine hk h1 k ?_
        simp [List.length_cons]
        omega
      have hbr : ¬(he = true ∧ j = n - 1) := by
        rintro ⟨h1, h2⟩
        exact hk h1 j (by omega) h2
      rw [List.cons_append, altLoop, if_neg hbr]
      by_cases hg : pyStrip (pyLower a.text) ∈ g
      · rw [if_pos hg]
        exact ih ta tb post (j + 1) 2 spans hta htb hk2
      · rw [if_neg hg]
        by_cases hc : cnt % 2 = 0
        · rw [if_pos hc]
          exact ih ta tb post (j + 1) (cnt + 1) (spans ++ [altSpan j c]) hta htb hk2
        · rw [if_neg hc]
          exact ih ta tb post (j + 1) (cnt + 1) spans hta htb hk2

theorem get_pair_split {α : Type} (l : List α) :
    ∀ (i : Nat) (a b : α), l.get? i = some a → l.get? (i + 1) = some b →
      l = l.take i ++ a :: b :: l.drop (i + 2) ∧ (l.take i).length = i := by
  induction l with
  | nil => intro i a b h1 _; simp at h1
  | cons c t ih =>
      intro i a b h1 h2
      cases i with
      | zero =>
          simp only [List.get?_cons_zero, Option.some.injEq] at h1
          subst h1
          rw [List.get?_cons_succ] at h2
          cases t with
          | nil => simp at h2
          | cons d t2 =>
              simp only [List.get?_cons_zero, Option.some.injEq] at h2
              subst h2
              exact ⟨rfl, rfl⟩
      | succ j =>
          rw [List.get?_cons_succ] at h1 h2
          obtain ⟨hdec, hlen⟩ := ih j a b h1 h2
          constructor
          · show c :: t = (c :: t).take (j + 1) ++ a :: b :: (c :: t).drop (j + 3)
            rw [List.take_succ_cons, List.drop_succ_cons, List.cons_append]
            exact congrArg (c :: ·) hdec
          · rw [List.take_succ_cons, List.length_cons, hlen]

theorem modifyAt_get_self (f : TickLabel → TickLabel) :
    ∀ (l : List TickLabel) (n : Nat),
      (modifyAt f n l).get? n = (l.get? n).map f := by
  intro l
  induction l with
  | nil => intro n; cases n <;> rfl
  | cons a t ih =>
      intro n
      cases n with
      | zero => rfl
      | succ k =>
          show (a :: modifyAt f k t).get? (k + 1) = ((a :: t).get? (k + 1)).map f
          rw [List.get?_cons_succ, List.get?_cons_succ]
          exact ih k

/-- Claim C1 counterexample: on the five-tick input
`[group "A", x1, x2, group "B", x3]` with no header row the decorator shades
rows 1 (`x1`) and 4 (`x3`) — the rows immediately FOLLOWING the group rows —
not row 2 as the claimed pattern `[unshaded, unshaded, shaded, unshaded,
unshaded]` requires (a group row sets `counter = 2`, so the very next
ordinary row sees an even counter and is shaded; the source's docstring
"Breaks from groups will restart with gray" agrees). -/
theorem alt_rows_pattern_cex :
    (draw_alt_row_colors df5 (some "group") none none "black" ax5).spans
      = [altSpan 1 "black", altSpan 4 "black"] ∧
    [altSpan 1 "black", altSpan 4 "black"] ≠ [altSpan 2 "black"] := by
  constructor
  · rfl
  · intro h
    exact absurd (congrArg List.length h) (by decide)

/-- Claim C1 (corrected).  Shading parity does reset at each group row
(`counter = 2`), but consequently the tick immediately following a group
row — when it is itself an ordinary, reachable row — is always SHADED, not
unshaded: on the five-tick example the pattern is `[unshaded, shaded,
unshaded, unshaded, shaded]`.  Stated generally: if tick `i` matches a
group, tick `i+1` does not, and tick `i+1` is not the skipped header row,
then the decorator emits the shading span for row `i+1`. -/
theorem alt_rows_after_group_shaded (df : List Row) (groupvar : Option String)
    (ah rah : Option (List String)) (color : String) (ax : Axes) (i : Nat)
    (ta tb : TickLabel)
    (h1 : ax.yticklabels.get? i = some ta)
    (h2 : ax.yticklabels.get? (i + 1) = some tb)
    (h3 : pyStrip (pyLower ta.text) ∈ altGroups df groupvar)
    (h4 : pyStrip (pyLower tb.text) ∉ altGroups df groupvar)
    (h5 : (ah.isSome || rah.isSome) = true →
      i + 1 ≠ ax.yticklabels.length - 1) :
    altSpan (i + 1) color
      ∈ (draw_alt_row_colors df groupvar ah rah color ax).spans := by
  have hlt : i + 1 < ax.yticklabels.length := by
    obtain ⟨hl, _⟩ := List.get?_eq_some.mp h2
    exact hl
  obtain ⟨hdec, hlen⟩ := get_pair_split ax.yticklabels i ta tb h1 h2
  show altSpan (i + 1) color ∈ altLoop (altGroups df groupvar)
      (ah.isSome || rah.isSome) ax.yticklabels.length color ax.yticklabels
      0 1 ax.spans
  have hk : (ah.isSome || rah.isSome) = true →
      ∀ k, k ≤ 0 + (ax.yticklabels.take i).length + 1 →
        k ≠ ax.yticklabels.length - 1 := by
    intro hhe k hkle
    rw [hlen] at hkle
    have hne := h5 hhe
    omega
  have hmem := altLoop_shades_after_group (altGroups df groupvar)
      (ah.isSome || rah.isSome) ax.yticklabels.length color
      (ax.yticklabels.take i) ta tb (ax.yticklabels.drop (i + 2)) 0 1
      ax.spans h3 h4 hk
  rw [← hdec, hlen] at hmem
  simpa using hmem

/-- Witness for C1's corrected statement on the five-tick example: row 1,
immediately after group row 0, is shaded. -/
theorem alt_rows_after_group_shaded_witness :
    altSpan 1 "black"
      ∈ (draw_alt_row_colors df5 (some "group") none none "black" ax5).spans :=
  alt_rows_after_group_shaded df5 (some "group") none none "black" ax5 0
    (plainTick "A") (plainTick "x1") rfl rfl (by decide) (by decide)
    (fun _ => by decide)

/-- Claim C4 (confirmed).  When a synthetic table-header row is present
(some annotation-header list is non-null): (a) the alternating-row
decorator never shades the last tick row — the loop breaks before
processing it, so the only span it could add at that index is never
emitted; and (b) `format_tableheader` gives the last tick row the
configured header weight and size, and does so regardless of any
group-label formatting applied by `format_grouplabels` beforehand, because
it overwrites both fields. -/
theorem header_row_unshaded_and_bold (df : List Row) (groupvar : Option String)
    (ah rah : Option (List String)) (color : String) (glsz : Rat)
    (glfw : String) (thfw : String) (thfs : Rat) (ax : Axes)
    (hh : (ah.isSome || rah.isSome) = true)
    (hne : ax.yticklabels ≠ [])
    (hsp : altSpan (ax.yticklabels.length - 1) color ∉ ax.spans) :
    (altSpan (ax.yticklabels.length - 1) color
        ∉ (draw_alt_row_colors df groupvar ah rah color ax).spans) ∧
    (∃ tlh, (format_tableheader ah rah thfw thfs
          (format_grouplabels df groupvar glsz glfw ax)).yticklabels.get?
            (ax.yticklabels.length - 1) = some tlh ∧
      tlh.fontweight = thfw ∧ tlh.fontsize = thfs) := by
  constructor
  · intro hmem
    have hmem2 : altSpan (ax.yticklabels.length - 1) color ∈
        altLoop (altGroups df groupvar) (ah.isSome || rah.isSome)
          ax.yticklabels.length color ax.yticklabels 0 1 ax.spans := hmem
    rw [hh] at hmem2
    rcases altLoop_spans_subset _ _ _ _ _ _ _ _ hmem2 with hold | ⟨k, hk, heq⟩
    · exact hsp hold
    · have hy := congrArg Span.ymin heq
      simp only [altSpan] at hy
      have hcast : ((ax.yticklabels.length - 1 : Nat) : Rat) = (k : Rat) :=
        sub_left_inj.mp hy
      exact hk (Nat.cast_injective hcast).symm
  · have hlen2 : (format_grouplabels df groupvar glsz glfw ax).yticklabels.length
        = ax.yticklabels.length := by
      cases groupvar with
      | none => rfl
      | some gvv => simp [format_grouplabels]
    rw [format_tableheader, if_pos hh, hlen2]
    show ∃ tlh, (modifyAt (setHdrFmt thfw thfs) (ax.yticklabels.length - 1)
        (format_grouplabels df groupvar glsz glfw ax).yticklabels).get?
          (ax.yticklabels.length - 1) = some tlh ∧
      tlh.fontweight = thfw ∧ tlh.fontsize = thfs
    rw [modifyAt_get_self]
    have hlt : ax.yticklabels.length - 1
        < (format_grouplabels df groupvar glsz glfw ax).yticklabels.length := by
      rw [hlen2]
      have : ax.yticklabels.length ≠ 0 :=
        fun hc => hne (List.length_eq_zero.mp hc)
      omega
    rw [List.get?_eq_get hlt]
    exact ⟨setHdrFmt thfw thfs
      ((format_grouplabels df groupvar glsz glfw ax).yticklabels.get
        ⟨ax.yticklabels.length - 1, hlt⟩), rfl, rfl, rfl⟩

/-- Witness for C4 at a concrete two-tick axes with a left annotation
header present. -/
theorem header_row_unshaded_and_bold_witness :
    (altSpan (ax2h.yticklabels.length - 1) "black"
        ∉ (draw_alt_row_colors [] none (some ["h"]) none "black" ax2h).spans) ∧
    (∃ tlh, (format_tableheader (some ["h"]) none "bold" 10
          (format_grouplabels [] none 10 "bold" ax2h)).yticklabels.get?
            (ax2h.yticklabels.length - 1) = some tlh ∧
      tlh.fontweight = "bold" ∧ tlh.fontsize = 10) :=
  header_row_unshaded_and_bold [] none (some ["h"]) none "black" 10 "bold"
    "bold" 10 ax2h rfl (by decide) (by simp [ax2h, ax0])
